import Mathlib

/-!
Verification development for the mail composition and SMTP sending core of
the wstools repository (src/common/cli/mail.go).

The Go code is shallowly embedded: bytes are `Nat` values (< 256), byte
streams are `List Nat`, the filesystem is a function from paths to optional
file contents, the platform MIME-type table is a function from extensions to
type strings, and the randomly generated MIME boundaries together with Go's
unspecified map iteration order are explicit parameters.  Fallible Go calls
return `Option` results.  Collaborator functions from the Go standard library
(strings.Split, base64, quotedprintable, mime, mime/multipart, net/smtp) are
modelled at the granularity the repository exercises; each model's doc
comment states its scope.
-/

set_option autoImplicit false
set_option maxRecDepth 20000

namespace WsMail

/-- UTF-8 encoding of a single character, as byte values.  Go strings are
UTF-8 byte sequences, so a Go `string` corresponds to the flattening of this
over its characters. -/
def utf8Bytes (c : Char) : List Nat :=
  let n := c.toNat
  if n < 128 then [n]
  else if n < 2048 then [192 + n / 64, 128 + n % 64]
  else if n < 65536 then [224 + n / 4096, 128 + n / 64 % 64, 128 + n % 64]
  else [240 + n / 262144, 128 + n / 4096 % 64, 128 + n / 64 % 64, 128 + n % 64]

/-- The bytes of a Lean string, UTF-8 encoded; this is the byte sequence the
corresponding Go string holds, and `(strBytes s).length` is Go's `len(s)`. -/
def strBytes (s : String) : List Nat :=
  s.data.flatMap utf8Bytes

/-- Splitting a character list at every occurrence of `sep`; a list with no
separator yields one field, so the result is never empty.  This models Go's
`strings.Split` field structure. -/
def splitOnChar (sep : Char) : List Char → List (List Char)
  | [] => [[]]
  | c :: rest =>
    if c = sep then [] :: splitOnChar sep rest
    else
      match splitOnChar sep rest with
      | [] => [[c]]
      | f :: fs => (c :: f) :: fs

/-- Model of Go `strings.Split(s, ",")`.  Note `strings.Split("", ",")`
is `[""]`, a one-element slice, never the empty slice. -/
def splitGo (s : String) : List String :=
  (splitOnChar ',' s.data).map (fun l => String.mk l)

/-- Model of Go `path/filepath.Base` for the plain relative/absolute file
paths the repository passes (no trailing slash handling): the component
after the final slash. -/
def filepathBase (p : String) : String :=
  String.mk ((splitOnChar '/' p.data).getLastD [])

/-- Model of Go `path/filepath.Ext`: the suffix of the base name starting at
its final dot, or the empty string when the base name has no dot. -/
def filepathExt (p : String) : String :=
  let parts := splitOnChar '.' (filepathBase p).data
  if parts.length ≤ 1 then "" else String.mk ('.' :: parts.getLastD [])

/-- Uppercase hexadecimal digit, as in Go's `upperhex` table. -/
def hexUpper (n : Nat) : Nat :=
  if n < 10 then 48 + n else 55 + n

/-- The base64 standard alphabet (`encoding/base64.StdEncoding`), as a byte
value for each 6-bit index. -/
def b64index (i : Nat) : Nat :=
  if i < 26 then 65 + i
  else if i < 52 then 97 + (i - 26)
  else if i < 62 then 48 + (i - 52)
  else if i = 62 then 43
  else 47

/-- Model of `base64.StdEncoding.Encode`: standard base64 with `=` padding,
three input bytes per four output characters. -/
def b64encode : List Nat → List Nat
  | a :: b :: c :: rest =>
    b64index (a / 4) :: b64index (a % 4 * 16 + b / 16) ::
      b64index (b % 16 * 4 + c / 64) :: b64index (c % 64) :: b64encode rest
  | [a, b] => [b64index (a / 4), b64index (a % 4 * 16 + b / 16), b64index (b % 16 * 4), 61]
  | [a] => [b64index (a / 4), b64index (a % 4 * 16), 61, 61]
  | [] => []

/-- Whether a byte passes through Go's quoted-printable encoder unescaped:
printable ASCII other than `=`, plus space and tab.  (Scope of the model:
the repository feeds the encoder message text; CR/LF normalisation and the
trailing-whitespace rule of `encoding/quotedprintable` are outside the
claims and not modelled.) -/
def qpPlain (b : Nat) : Bool :=
  (33 ≤ b && b ≤ 126 && b != 61) || b == 32 || b == 9

/-- The `=XX` escape for a byte, uppercase hex as in Go. -/
def qpEscape (b : Nat) : List Nat :=
  [61, hexUpper (b / 16), hexUpper (b % 16)]

/-- The sequence of sink writes Go's `quotedprintable.Writer` performs:
the encoder buffers a line of at most 76 characters and flushes it either
with a soft line break `=\r\n` (when the next literal would pass column 75,
or the next escape would pass column 73) or, at `Close`, as the final
unterminated line.  `line` is the buffered line so far. -/
def qpFlushes (line : List Nat) : List Nat → List (List Nat)
  | [] => if line = [] then [] else [line]
  | b :: rest =>
    if qpPlain b then
      if 75 ≤ line.length then (line ++ [61, 13, 10]) :: qpFlushes [b] rest
      else qpFlushes (line ++ [b]) rest
    else
      if 73 ≤ line.length then (line ++ [61, 13, 10]) :: qpFlushes (qpEscape b) rest
      else qpFlushes (line ++ qpEscape b) rest

/-- The full quoted-printable encoding of a byte sequence: the concatenation
of every flushed line. -/
def qpBody (data : List Nat) : List Nat :=
  (qpFlushes [] data).flatten

/-- Model of `needsEncoding` in Go's `mime` package: a header value needs
RFC 2047 encoding when it holds a rune outside the printable ASCII range
other than tab. -/
def needsEncoding (s : String) : Bool :=
  s.data.any (fun c => (c.toNat < 32 || 126 < c.toNat) && c != '\t')

/-- Q-encoding of one byte inside an encoded word (`mime.QEncoding`):
space becomes `_`, printable bytes other than `=`, `?`, `_` pass through,
everything else becomes `=XX`. -/
def qByte (b : Nat) : List Nat :=
  if b == 32 then [95]
  else if 33 ≤ b && b ≤ 126 && b != 61 && b != 63 && b != 95 then [b]
  else [61, hexUpper (b / 16), hexUpper (b % 16)]

/-- Model of `mime.QEncoding.Encode("UTF-8", s)`: the value itself when no
encoding is needed, otherwise a single `=?UTF-8?q?...?=` encoded word.
(Scope: Go splits words longer than 75 encoded bytes; the repository's
header values in the claims are short, and the split is not modelled.) -/
def qEncodeBytes (s : String) : List Nat :=
  if needsEncoding s then
    strBytes "=?UTF-8?q?" ++ (strBytes s).flatMap qByte ++ strBytes "?="
  else strBytes s

/-- The mail configuration record of the repository (`MailConfig` in
mail.go): credentials, server host, addresses, subject, body text or body
file path, content subtype, and comma-delimited attachment paths.  The Go
field `Type` is rendered `Typ` because `Type` is not a usable field name in
Lean. -/
structure MailConfig where
  User : String
  Passwd : String
  Host : String
  From : String
  To : String
  Typ : String
  Subject : String
  Content : String
  ContentPath : String
  Attachments : String
deriving DecidableEq

/-- Summing the stat'd sizes of a list of paths against a filesystem `fsSize`
(path to size, `none` for a stat failure), failing at the first missing
path — the loop body of `MailConfig.Len`. -/
def sumSizes (fsSize : String → Option Nat) : List String → Option Nat
  | [] => some 0
  | p :: ps =>
    match fsSize p with
    | none => none
    | some n => (sumSizes fsSize ps).map (fun m => n + m)

/-- The attachment-summing tail of `MailConfig.Len`: when the attachment
list is non-empty, add the stat'd size of every listed path to `base`. -/
def attachSum (e : MailConfig) (fsSize : String → Option Nat) (base : Nat) : Option Nat :=
  if e.Attachments ≠ "" then (sumSizes fsSize (splitGo e.Attachments)).map (fun m => base + m)
  else some base

/-- Model of `MailConfig.Len` (mail.go): content length, or the stat'd size
of the content file; when both `Content` and `ContentPath` are empty the
function returns `(0, nil)` at once, without looking at the attachments.
Only when a body is present does it add the stat'd attachment sizes. -/
def MailConfig.Len (e : MailConfig) (fsSize : String → Option Nat) : Option Nat :=
  if e.Content ≠ "" then attachSum e fsSize (strBytes e.Content).length
  else if e.ContentPath ≠ "" then
    match fsSize e.ContentPath with
    | none => none
    | some n => attachSum e fsSize n
  else some 0

/-- The size estimate as the specification words it: content length (or
stat'd content-file size, or zero for no body) plus the stat'd size of every
attachment file. -/
def estimateSpec (e : MailConfig) (fsSize : String → Option Nat) : Option Nat :=
  let base :=
    if e.Content ≠ "" then some (strBytes e.Content).length
    else if e.ContentPath ≠ "" then fsSize e.ContentPath
    else some 0
  match base with
  | none => none
  | some b => attachSum e fsSize b

/-- Model of `MailConfig.Headers`: a fresh header map receives `To` (when
the recipient string is non-empty), `Subject` (when non-empty) and always
`From`, in this insertion order. -/
def MailConfig.Headers (e : MailConfig) : List (String × String) :=
  (if e.To ≠ "" then [("To", e.To)] else [])
    ++ (if e.Subject ≠ "" then [("Subject", e.Subject)] else [])
    ++ [("From", e.From)]

/-- Errors `MailConfig.Writer` can return: a sink write failure or a failure
opening the content or an attachment file. -/
inductive WErr
  | sinkWrite
  | fileOpen (path : String)
deriving DecidableEq

section WriterModel

variable {σ : Type}

/-- The sink interface of the composition model: a write transforms the sink
state and reports success or failure, as an `io.Writer`'s `Write` call does.
`wr` is an explicit parameter throughout so that both a reliable in-memory
sink and failing sinks instantiate the same transcription of the code. -/
def pureWr (s l : List Nat) : List Nat × Bool :=
  (s ++ l, true)

/-- A sink that accepts at most `cap` bytes, then fails every further write;
the `Bool` component of its state records whether any write has failed. -/
def capWr (cap : Nat) (s : Nat × Bool) (l : List Nat) : (Nat × Bool) × Bool :=
  if s.1 + l.length ≤ cap then ((s.1 + l.length, s.2), true) else ((s.1, true), false)

/-- A sink on which every write fails. -/
def failWr (s : Unit) (_ : List Nat) : Unit × Bool :=
  (s, false)

/-- Model of `headerToBytes` (mail.go): for each map entry, write the field
name, a colon and space, the value — raw for `Content-Type` and
`Content-Disposition`, Q-encoded otherwise — and CRLF.  Go ranges over the
header map in unspecified order, modelled by the explicit key order `ord`;
faithful runs take `ord` to be a permutation of the map's keys.  All write
errors are ignored (the Go function has no error result). -/
def headerToBytes (wr : σ → List Nat → σ × Bool) :
    σ → List String → List (String × String) → σ
  | s, [], _ => s
  | s, k :: ks, hdr =>
    match hdr.lookup k with
    | none => headerToBytes wr s ks hdr
    | some v =>
      let s1 := (wr s (strBytes k)).1
      let s2 := (wr s1 (strBytes ": ")).1
      let s3 := (wr s2 (if k = "Content-Type" ∨ k = "Content-Disposition"
        then strBytes v else qEncodeBytes v)).1
      let s4 := (wr s3 (strBytes "\r\n")).1
      headerToBytes wr s4 ks hdr

/-- Lexicographic order on byte sequences — the order `sort.Strings`
compares Go strings in. -/
def bytesLe : List Nat → List Nat → Bool
  | [], _ => true
  | _ :: _, [] => false
  | a :: as, b :: bs => if a < b then true else if b < a then false else bytesLe as bs

/-- Insertion into a key-sorted association list, for the key sort
`mime/multipart.Writer.CreatePart` performs. -/
def insertKey (kv : String × String) : List (String × String) → List (String × String)
  | [] => [kv]
  | x :: xs => if bytesLe (strBytes kv.1) (strBytes x.1) then kv :: x :: xs else x :: insertKey kv xs

/-- Sorting an association list by key (`sort.Strings` on the keys in
`CreatePart`). -/
def sortKeys : List (String × String) → List (String × String)
  | [] => []
  | x :: xs => insertKey x (sortKeys xs)

/-- The header block `CreatePart` writes: each entry as `Key: value` with
CRLF, keys sorted, values written raw. -/
def createPartHdrBytes (hdr : List (String × String)) : List Nat :=
  (sortKeys hdr).flatMap (fun kv => strBytes (kv.1 ++ ": " ++ kv.2 ++ "\r\n"))

/-- The byte block `mime/multipart.Writer.CreatePart` emits in its single
buffered write: the boundary opener (with a leading CRLF except for the
first part), the sorted headers, and a blank line. -/
def createPartBytes (first : Bool) (boundary : String) (hdr : List (String × String)) : List Nat :=
  strBytes (if first then "--" else "\r\n--") ++ strBytes boundary ++ strBytes "\r\n"
    ++ createPartHdrBytes hdr ++ strBytes "\r\n"

/-- Performing a sequence of sink writes, stopping at the first failure —
how `quotedprintable.Writer` surfaces its flush errors through `Write` and
`Close`. -/
def writeAll (wr : σ → List Nat → σ × Bool) : σ → List (List Nat) → σ × Bool
  | s, [] => (s, true)
  | s, l :: ls =>
    match wr s l with
    | (s', true) => writeAll wr s' ls
    | (s', false) => (s', false)

/-- The body bytes the quoted-printable part encodes: the literal `Content`
string when non-empty, else the bytes of the file at `ContentPath` (`none`
models an `os.Open` failure). -/
def contentData (e : MailConfig) (fs : String → Option (List Nat)) : Option (List Nat) :=
  if e.Content ≠ "" then some (strBytes e.Content) else fs e.ContentPath

/-- The header map of the text sub-part after the two `Set` calls: the
alternative `Content-Type` is overwritten by the text one, and the
quoted-printable transfer encoding is added. -/
def altPartHdr (e : MailConfig) : List (String × String) :=
  [("Content-Type", "text/" ++ e.Typ ++ "; charset=UTF-8"),
   ("Content-Transfer-Encoding", "quoted-printable")]

/-- Model of the `multipart/alternative` section of `MailConfig.Writer`
(the branch taken when `Content` or `ContentPath` is non-empty): the
alternative header written through `headerToBytes` (single key, so map
order is immaterial; the value itself ends in CRLF as in the source), the
sub-writer's `CreatePart` (error checked), the quoted-printable body
(write and close errors checked; an `os.Open` failure on the content path
is returned before any body byte), and the sub-writer's `Close`, which
writes the inner terminator (error checked). -/
def altSectionW (wr : σ → List Nat → σ × Bool) (e : MailConfig)
    (fs : String → Option (List Nat)) (b2 : String) (s : σ) : σ × Option WErr :=
  let s := headerToBytes wr s ["Content-Type"]
    [("Content-Type", "multipart/alternative;\r\n boundary=" ++ b2 ++ "\r\n")]
  match wr s (createPartBytes true b2 (altPartHdr e)) with
  | (s, false) => (s, some .sinkWrite)
  | (s, true) =>
    match contentData e fs with
    | none => (s, some (.fileOpen e.ContentPath))
    | some data =>
      match writeAll wr s (qpFlushes [] data) with
      | (s, false) => (s, some .sinkWrite)
      | (s, true) =>
        match wr s (strBytes ("\r\n--" ++ b2 ++ "--\r\n")) with
        | (s, ok) => (s, if ok then none else some .sinkWrite)

/-- The attachment part headers built by `attach`: inferred content type
(`mt` models the platform-dependent `mime.TypeByExtension` table, empty
string for unknown, defaulting to `application/octet-stream`), disposition
with the base filename, a content id from the basename, and base64 transfer
encoding. -/
def attachHdr (mt : String → String) (path : String) : List (String × String) :=
  let typ := mt (filepathExt path)
  let basename := filepathBase path
  [("Content-Type", if typ ≠ "" then typ else "application/octet-stream"),
   ("Content-Disposition", "attachment;\r\n filename=\"" ++ basename ++ "\""),
   ("Content-ID", "<" ++ basename ++ ">"),
   ("Content-Transfer-Encoding", "base64")]

/-- The chunk sequence `r.Read(b)` hands `base64Wrap` with its 57-byte read
buffer: chunks of `n = min(57, remaining)` bytes, then EOF — the normal
behaviour of the `os.File` and `bytes.Buffer` readers the repository passes
(a short chunk appears only as the final chunk).  `acc` accumulates the
current chunk. -/
def readChunksAux (acc : List Nat) : List Nat → List (List Nat)
  | [] => if acc = [] then [] else [acc]
  | b :: rest =>
    if acc.length = 56 then (acc ++ [b]) :: readChunksAux [] rest
    else readChunksAux (acc ++ [b]) rest

/-- The reads `base64Wrap` observes for a stream holding `input`. -/
def readChunks (input : List Nat) : List (List Nat) :=
  readChunksAux [] input

/-- One iteration step of `base64Wrap` (mail.go) over the observed read
chunks.  A full 57-byte chunk is encoded into the 78-byte line buffer
(76 base64 characters plus CRLF) and written; for a shorter final chunk of
`n` bytes the code computes `EncodedLen(len(b)) = 76` from the untruncated
read buffer `b` and encodes all of `b` — the `n` fresh bytes followed by
`57 - n` stale bytes left in the buffer from the previous read (`bbuf`,
all zeros before the first read) — again emitting a 76-character line plus
CRLF.  Write results are discarded (`w.Write` errors are never returned,
only read errors would be); `we` accumulates whether any write through the
enclosing multipart part failed, the part's sticky error. -/
def base64WrapGo (wr : σ → List Nat → σ × Bool) : σ → Bool → List Nat → List (List Nat) → σ × Bool
  | s, we, _, [] => (s, we)
  | s, we, bbuf, c :: cs =>
    if c.length = 57 then
      let w := wr s (b64encode c ++ [13, 10])
      base64WrapGo wr w.1 (we || !w.2) c cs
    else
      let w := wr s (b64encode (c ++ bbuf.drop c.length) ++ [13, 10])
      (w.1, we || !w.2)

/-- Model of `base64Wrap` run on a stream holding `input`, from the initial
all-zero read buffer. -/
def base64Wrap (wr : σ → List Nat → σ × Bool) (s : σ) (we : Bool) (input : List Nat) : σ × Bool :=
  base64WrapGo wr s we (List.replicate 57 0) (readChunks input)

/-- The bytes `base64Wrap` writes on a reliable sink for a stream holding
`input`. -/
def base64WrapBytes (input : List Nat) : List Nat :=
  (base64Wrap pureWr [] false input).1

/-- Model of `attach` (mail.go): open the file (failure returned before any
write), create the outer-boundary part (a later `CreatePart` first closes
the previous part, returning its sticky write error, and the part write
itself is error-checked), then stream the base64-encoded contents, whose
write failures only feed the new part's sticky error.  Returns the sink
state, the updated `lastpart != nil` flag, the new part's sticky-error
flag, and the error. -/
def attachW (wr : σ → List Nat → σ × Bool) (mt : String → String)
    (fs : String → Option (List Nat)) (b1 : String)
    (s : σ) (first we : Bool) (path : String) : σ × Bool × Bool × Option WErr :=
  match fs path with
  | none => (s, first, we, some (.fileOpen path))
  | some data =>
    if !first && we then (s, first, we, some .sinkWrite)
    else
      match wr s (createPartBytes first b1 (attachHdr mt path)) with
      | (s, false) => (s, first, we, some .sinkWrite)
      | (s, true) =>
        let r := base64Wrap wr s false data
        (r.1, false, r.2, none)

/-- The attachment loop of `MailConfig.Writer`: attach each listed path in
order; on the first failure call `w.Close()` — whose result the code
discards, and which writes the outer terminator unless an existing part
holds a sticky write error — and return the failure.  On success the loop
simply ends: `w.Close()` is never called on the success path. -/
def attachLoopW (wr : σ → List Nat → σ × Bool) (mt : String → String)
    (fs : String → Option (List Nat)) (b1 : String) :
    σ → Bool → Bool → List String → σ × Option WErr
  | s, _, _, [] => (s, none)
  | s, first, we, p :: ps =>
    match attachW wr mt fs b1 s first we p with
    | (s, first', we', none) => attachLoopW wr mt fs b1 s first' we' ps
    | (s, first', we', some e) =>
      let s := if first' || !we' then (wr s (strBytes ("\r\n--" ++ b1 ++ "--\r\n"))).1 else s
      (s, some e)

/-- Model of `MailConfig.Writer` (mail.go): top-level headers (including the
`multipart/mixed` content type with the outer boundary `b1`) through
`headerToBytes` in map order `ord`, a blank line, the manual outer-boundary
opener, then the alternative text section when a body is present, then the
attachment parts.  `b1`, `b2` stand for the two randomly generated
boundaries.  Note the outer multipart writer's `Close` is never reached on
success. -/
def MailConfig.Writer (e : MailConfig) (wr : σ → List Nat → σ × Bool)
    (fs : String → Option (List Nat)) (mt : String → String)
    (b1 b2 : String) (ord : List String) (s : σ) : σ × Option WErr :=
  let hdrs := e.Headers ++ [("Content-Type", "multipart/mixed;\r\n boundary=" ++ b1)]
  let s := headerToBytes wr s ord hdrs
  let s := (wr s (strBytes "\r\n")).1
  let s := (wr s (strBytes ("--" ++ b1 ++ "\r\n"))).1
  let attachPhase : σ → σ × Option WErr := fun s =>
    if e.Attachments ≠ "" then attachLoopW wr mt fs b1 s true false (splitGo e.Attachments)
    else (s, none)
  if e.Content ≠ "" ∨ e.ContentPath ≠ "" then
    match altSectionW wr e fs b2 s with
    | (s, some err) => (s, some err)
    | (s, none) => attachPhase s
  else attachPhase s

/-- `MailConfig.Writer` run on the reliable in-memory sink from an empty
buffer: the composed payload bytes and the error result. -/
def writerRun (e : MailConfig) (fs : String → Option (List Nat)) (mt : String → String)
    (b1 b2 : String) (ord : List String) : List Nat × Option WErr :=
  e.Writer pureWr fs mt b1 b2 ord []

end WriterModel

/-- Observable protocol events of one `MailSend` run: each SMTP command the
client issues, the streaming of the message body, and the release of the
underlying connection (the deferred `client.Close()`). -/
inductive SmtpEvent
  | dial
  | hello
  | starttls
  | auth
  | mailFrom
  | rcpt (addr : String)
  | dataCmd
  | dataWrite
  | dataClose
  | quit
  | closeConn
deriving DecidableEq

/-- Errors a `MailSend` run can return, one per failing protocol step. -/
inductive SmtpErr
  | configErr
  | dialErr
  | helloErr
  | starttlsErr
  | authErr
  | mailErr
  | rcptErr
  | dataErr
  | dataWriteErr
  | dataCloseErr
  | quitErr
deriving DecidableEq

/-- The mail server as the client observes it: which handshake steps
succeed, whether STARTTLS is advertised, and which RCPT addresses are
accepted.  This models the responses `net/smtp` checks at each step. -/
structure SmtpServer where
  dialOk : Bool
  helloOk : Bool
  starttlsOffered : Bool
  starttlsOk : Bool
  authOk : Bool
  mailOk : Bool
  rcptOk : String → Bool
  dataOk : Bool
  dataWriteOk : Bool
  dataCloseOk : Bool
  quitOk : Bool

/-- One protocol step: the command is issued (its event recorded); on a
rejected response the function returns at once with `e`, otherwise the run
continues with `k`. -/
def step (ev : SmtpEvent) (ok : Bool) (e : SmtpErr) (k : List SmtpEvent × Option SmtpErr) :
    List SmtpEvent × Option SmtpErr :=
  if ok then (ev :: k.1, k.2) else ([ev], some e)

/-- The RCPT loop of `MailSend`: one `client.Rcpt` per address, in list
order, returning at the first rejected recipient. -/
def rcptLoop (srv : SmtpServer) : List String → List SmtpEvent × Option SmtpErr
  | [] => ([], none)
  | a :: rest =>
    if srv.rcptOk a then
      let r := rcptLoop srv rest
      (.rcpt a :: r.1, r.2)
    else ([.rcpt a], some .rcptErr)

/-- The protocol sequence of `MailSend` after a successful dial: Hello,
STARTTLS only when the server advertises it, Auth, Mail, the RCPT loop,
the DATA command, the body copy, the data close, and finally Quit, whose
result is the value returned.  Every rejected step returns immediately. -/
def mailSendAfterDial (msg : MailConfig) (srv : SmtpServer) : List SmtpEvent × Option SmtpErr :=
  step .hello srv.helloOk .helloErr
    ((if srv.starttlsOffered then step .starttls srv.starttlsOk .starttlsErr else id)
      (step .auth srv.authOk .authErr
        (step .mailFrom srv.mailOk .mailErr
          (let r := rcptLoop srv (splitGo msg.To)
           match r.2 with
           | some e => (r.1, some e)
           | none =>
             let rest :=
               step .dataCmd srv.dataOk .dataErr
                 (step .dataWrite srv.dataWriteOk .dataWriteErr
                   (step .dataClose srv.dataCloseOk .dataCloseErr
                     ([.quit], if srv.quitOk then none else some .quitErr)))
             (r.1 ++ rest.1, rest.2)))))

/-- Model of `MailSend` (mail.go).  The recipient list is
`strings.Split(msg.To, ",")`, which is never empty, so the
`len(to) == 0` guard can only be passed; an empty `From` string is
rejected before dialing.  After a successful dial the connection close is
deferred, so `closeConn` is the final event of every remaining path.  The
`body` reader is rewound and streamed during the DATA phase; its bytes do
not influence the control flow modelled here. -/
def MailSend (msg : MailConfig) (srv : SmtpServer) (body : List Nat) :
    List SmtpEvent × Option SmtpErr :=
  let toAddrs := splitGo msg.To
  if msg.From = "" ∨ toAddrs.length = 0 then ([], some .configErr)
  else if !srv.dialOk then ([.dial], some .dialErr)
  else
    let r := mailSendAfterDial msg srv
    (.dial :: r.1 ++ [.closeConn], r.2)

/-- Observable events of one `MailRun` run: the size estimation, the
creation of the temporary spool file (taken only at or above the 10 MiB
threshold), the composition of the message into the sink, and the SMTP
session events. -/
inductive RunEvent
  | lenEv
  | createTempFile
  | composeEv
  | net (e : SmtpEvent)
deriving DecidableEq

/-- Errors `MailRun` can return. -/
inductive RunErr
  | paramErr
  | tempErr
  | composeErr (e : WErr)
  | sendErr (e : SmtpErr)
deriving DecidableEq

/-- The 10 MiB in-memory threshold (`memMaxSize = 10 << 20`). -/
def memMaxSize : Nat := 10 <<< 20

/-- Model of `MailRun` (mail.go): reject empty `User`, `Passwd`, `From` or
`To` before anything else; estimate the size with `Len` — and on a `Len`
error print a message and return `nil`, skipping every remaining step; pick
the temp-file sink at or above 10 MiB (`tempOk` models whether `os.Create`
succeeds); compose the message with `Writer`; and hand the composed bytes
to `MailSend`, whose error is the returned result.  `fs` maps paths to file
contents, so the stat'd size of a file is its length. -/
def MailRun (mailConfig : MailConfig) (fs : String → Option (List Nat))
    (mt : String → String) (b1 b2 : String) (ord : List String)
    (tempOk : Bool) (srv : SmtpServer) : List RunEvent × Option RunErr :=
  if mailConfig.User = "" ∨ mailConfig.Passwd = "" ∨ mailConfig.From = "" ∨ mailConfig.To = "" then
    ([], some .paramErr)
  else
    match mailConfig.Len (fun p => (fs p).map List.length) with
    | none => ([.lenEv], none)
    | some size =>
      let tempEvs := if size ≥ memMaxSize then [RunEvent.createTempFile] else []
      if size ≥ memMaxSize ∧ !tempOk then ([.lenEv] ++ tempEvs, some .tempErr)
      else
        let w := writerRun mailConfig fs mt b1 b2 ord
        match w.2 with
        | some e => ([.lenEv] ++ tempEvs ++ [.composeEv], some (.composeErr e))
        | none =>
          let r := MailSend mailConfig srv w.1
          ([.lenEv] ++ tempEvs ++ [.composeEv] ++ r.1.map .net, r.2.map .sendErr)

/-- Occurrence count of a byte pattern inside a byte sequence (at every
start position). -/
def countOcc (pat : List Nat) : List Nat → Nat
  | [] => if pat = [] then 1 else 0
  | l@(_ :: rest) => (if l.take pat.length = pat then 1 else 0) + countOcc pat rest

/-! ## Boundary-token templates

To state that two composition runs differ only in the randomly generated
boundary strings, the payload is expressed as the rendering of a token
template in which every occurrence of a boundary is an explicit token. -/

/-- Tokens of the boundary template: a literal byte, or one of the two
boundary strings. -/
inductive BTok
  | lit (b : Nat)
  | bnd1
  | bnd2
deriving DecidableEq

/-- Rendering one template token against concrete boundary strings. -/
def renderTok (b1 b2 : String) : BTok → List Nat
  | .lit b => [b]
  | .bnd1 => strBytes b1
  | .bnd2 => strBytes b2

/-- Rendering a template against concrete boundary strings. -/
def render (b1 b2 : String) (ts : List BTok) : List Nat :=
  ts.flatMap (renderTok b1 b2)

/-- The literal tokens of a byte sequence. -/
def lits (l : List Nat) : List BTok := l.map .lit

/-- The byte block one key of the top-level header map contributes to the
composed payload, as boundary-template tokens: the structural
`Content-Type` value embeds the outer boundary token, every other present
key contributes its Q-encoded literal bytes. -/
def hdrEntryToks (e : MailConfig) (k : String) : List BTok :=
  if k = "Content-Type" then
    lits (strBytes "Content-Type" ++ strBytes ": " ++ strBytes "multipart/mixed;\r\n boundary=")
      ++ [.bnd1] ++ lits (strBytes "\r\n")
  else
    match e.Headers.lookup k with
    | none => []
    | some v => lits (strBytes k ++ strBytes ": " ++ qEncodeBytes v ++ strBytes "\r\n")

/-- The byte lines `base64Wrap` emits for a given read-chunk sequence, from
read-buffer leftovers `bbuf`. -/
def b64lines : List Nat → List (List Nat) → List Nat
  | _, [] => []
  | bbuf, c :: cs =>
    if c.length = 57 then b64encode c ++ [13, 10] ++ b64lines c cs
    else b64encode (c ++ bbuf.drop c.length) ++ [13, 10]

/-- The boundary-template tokens of the alternative text section: the
section header and first sub-part are always written; the quoted-printable
body and the inner terminator follow only when the content source is
available. -/
def altSectToks (e : MailConfig) (fs : String → Option (List Nat)) : List BTok :=
  let headToks :=
    lits (strBytes "Content-Type" ++ strBytes ": "
        ++ strBytes "multipart/alternative;\r\n boundary=")
      ++ [.bnd2] ++ lits (strBytes "\r\n" ++ strBytes "\r\n")
      ++ lits (strBytes "--") ++ [.bnd2]
      ++ lits (strBytes "\r\n" ++ createPartHdrBytes (altPartHdr e) ++ strBytes "\r\n")
  match contentData e fs with
  | none => headToks
  | some data =>
    headToks ++ lits (qpBody data)
      ++ lits (strBytes "\r\n--") ++ [.bnd2] ++ lits (strBytes "--\r\n")

/-- The error result of the alternative section: a content-file open
failure (surfaced after the part header has been written), or none. -/
def altSectErr (e : MailConfig) (fs : String → Option (List Nat)) : Option WErr :=
  match contentData e fs with
  | none => some (.fileOpen e.ContentPath)
  | some _ => none

/-- The boundary-template tokens one attachment contributes, together with
the updated `lastpart` flag and the error: a missing file contributes
nothing and fails; otherwise the part opener (leading CRLF except for the
first part), the sorted part headers, and the base64 body lines. -/
def attachToks (mt : String → String) (fs : String → Option (List Nat))
    (first : Bool) (path : String) : List BTok × Bool × Option WErr :=
  match fs path with
  | none => ([], first, some (.fileOpen path))
  | some data =>
    (lits (strBytes (if first then "--" else "\r\n--")) ++ [.bnd1]
       ++ lits (strBytes "\r\n" ++ createPartHdrBytes (attachHdr mt path) ++ strBytes "\r\n")
       ++ lits (base64WrapBytes data),
     false, none)

/-- The boundary-template tokens of the attachment loop, with its error:
attachments in order; at the first failure the outer terminator is appended
(the sticky-error case cannot arise on a reliable sink) and the loop
stops. -/
def attachLoopToks (mt : String → String) (fs : String → Option (List Nat)) :
    Bool → List String → List BTok × Option WErr
  | _, [] => ([], none)
  | first, p :: ps =>
    match attachToks mt fs first p with
    | (ts, first', none) =>
      let r := attachLoopToks mt fs first' ps
      (ts ++ r.1, r.2)
    | (ts, _, some e) =>
      (ts ++ (lits (strBytes "\r\n--") ++ [.bnd1] ++ lits (strBytes "--\r\n")), some e)

/-- The boundary-token template of one composition run and its error
result: both are functions of the spec, the filesystem, the MIME table and
the header iteration order alone — the boundary strings appear only as the
`bnd1`/`bnd2` tokens. -/
def writerToksErr (e : MailConfig) (fs : String → Option (List Nat)) (mt : String → String)
    (ord : List String) : List BTok × Option WErr :=
  let hd := ord.flatMap (hdrEntryToks e)
    ++ lits (strBytes "\r\n") ++ (lits (strBytes "--") ++ [.bnd1] ++ lits (strBytes "\r\n"))
  if e.Content ≠ "" ∨ e.ContentPath ≠ "" then
    match altSectErr e fs with
    | some err => (hd ++ altSectToks e fs, some err)
    | none =>
      if e.Attachments ≠ "" then
        let r := attachLoopToks mt fs true (splitGo e.Attachments)
        (hd ++ altSectToks e fs ++ r.1, r.2)
      else (hd ++ altSectToks e fs, none)
  else
    if e.Attachments ≠ "" then
      let r := attachLoopToks mt fs true (splitGo e.Attachments)
      (hd ++ r.1, r.2)
    else (hd, none)

/-! ## Protocol-phase predicates -/

/-- The protocol phases that must all succeed for a `MailSend` run to reach
the QUIT command. -/
def allPhasesOk (msg : MailConfig) (srv : SmtpServer) : Prop :=
  srv.helloOk = true ∧ (srv.starttlsOffered = true → srv.starttlsOk = true) ∧
  srv.authOk = true ∧ srv.mailOk = true ∧ (∀ a ∈ splitGo msg.To, srv.rcptOk a = true) ∧
  srv.dataOk = true ∧ srv.dataWriteOk = true ∧ srv.dataCloseOk = true

/-- Explicit branch-by-branch form of `mailSendAfterDial`, used to analyse
its traces. -/
def afdSpec (msg : MailConfig) (srv : SmtpServer) : List SmtpEvent × Option SmtpErr :=
  if srv.helloOk = false then ([.hello], some .helloErr)
  else if srv.starttlsOffered = true ∧ srv.starttlsOk = false then
    ([.hello, .starttls], some .starttlsErr)
  else
    let pre := SmtpEvent.hello :: (if srv.starttlsOffered then [SmtpEvent.starttls] else [])
    if srv.authOk = false then (pre ++ [.auth], some .authErr)
    else if srv.mailOk = false then (pre ++ [.auth, .mailFrom], some .mailErr)
    else
      let r := rcptLoop srv (splitGo msg.To)
      match r.2 with
      | some e => (pre ++ [.auth, .mailFrom] ++ r.1, some e)
      | none =>
        if srv.dataOk = false then
          (pre ++ [.auth, .mailFrom] ++ r.1 ++ [.dataCmd], some .dataErr)
        else if srv.dataWriteOk = false then
          (pre ++ [.auth, .mailFrom] ++ r.1 ++ [.dataCmd, .dataWrite], some .dataWriteErr)
        else if srv.dataCloseOk = false then
          (pre ++ [.auth, .mailFrom] ++ r.1 ++ [.dataCmd, .dataWrite, .dataClose],
           some .dataCloseErr)
        else
          (pre ++ [.auth, .mailFrom] ++ r.1 ++ [.dataCmd, .dataWrite, .dataClose, .quit],
           if srv.quitOk then none else some .quitErr)

/-! ## Concrete fixtures shared by the claim theorems -/

/-- An empty filesystem: every stat/open fails. -/
def fsNone : String → Option (List Nat) := fun _ => none

/-- A MIME-type table with no known extensions. -/
def mtNone : String → String := fun _ => ""

/-- A header map iteration order listing every key the writer's top-level
header map can hold, in insertion order. -/
def ordStd : List String := ["To", "Subject", "From", "Content-Type"]

/-- A server on which every protocol step succeeds (STARTTLS not offered). -/
def srvAllOk : SmtpServer :=
  ⟨true, true, false, true, true, true, fun _ => true, true, true, true, true⟩

/-- A server that accepts the dial and rejects the Hello. -/
def srvHelloFail : SmtpServer :=
  ⟨true, false, false, false, false, false, fun _ => false, false, false, false, false⟩

/-- A server that accepts everything except RCPT for any address other than
the first recipient of `cfgTwoRcpt`. -/
def srvSecondRcptFail : SmtpServer :=
  ⟨true, true, false, true, true, true, fun a => a == "b@x.com", true, true, true, true⟩

/-- A complete configuration with an inline body and no attachments. -/
def cfgStd : MailConfig :=
  ⟨"u", "p", "smtp.x.com:25", "a@x.com", "b@x.com", "plain", "greetings", "hi", "", ""⟩

/-- A configuration addressed to two recipients. -/
def cfgTwoRcpt : MailConfig :=
  ⟨"u", "p", "smtp.x.com:25", "a@x.com", "b@x.com,c@x.com", "plain", "hi", "hello", "", ""⟩

/-- A configuration with no body but one attachment. -/
def cfgAttachOnly : MailConfig :=
  ⟨"u", "p", "h:25", "a@x.com", "b@x.com", "plain", "s", "", "", "a.bin"⟩

/-- A filesystem (sizes) holding only the 5-byte attachment `a.bin`. -/
def fsSizeC2 : String → Option Nat := fun p => if p = "a.bin" then some 5 else none

/-- A configuration whose body comes from a (missing) content file. -/
def cfgC3 : MailConfig :=
  ⟨"u", "p", "h:25", "a@x.com", "b@x.com", "plain", "s", "", "missing.txt", ""⟩

/-- A configuration with an empty `To` string (and a sender present). -/
def cfgEmptyTo : MailConfig :=
  ⟨"u", "p", "h:25", "a@x.com", "", "plain", "s", "hi", "", ""⟩

/-- A configuration with neither body nor attachments. -/
def cfgNoBody : MailConfig :=
  ⟨"u", "p", "h:25", "a@x.com", "b@x.com", "plain", "s", "", "", ""⟩

/-! ## General lemmas about the embedding -/

theorem strBytes_append (a b : String) : strBytes (a ++ b) = strBytes a ++ strBytes b := by
  simp [strBytes]

theorem render_append (b1 b2 : String) (ts1 ts2 : List BTok) :
    render b1 b2 (ts1 ++ ts2) = render b1 b2 ts1 ++ render b1 b2 ts2 := by
  simp [render]

theorem render_lits (b1 b2 : String) (l : List Nat) : render b1 b2 (lits l) = l := by
  induction l with
  | nil => rfl
  | cons x xs ih => simp [render, lits, renderTok] at ih ⊢; exact ih

theorem render_cons (b1 b2 : String) (t : BTok) (ts : List BTok) :
    render b1 b2 (t :: ts) = renderTok b1 b2 t ++ render b1 b2 ts := by
  simp [render]

theorem lookup_of_none (l : List (String × String)) (k : String) (v : String)
    (h : l.lookup k = none) : (l ++ [(k, v)]).lookup k = some v := by
  induction l with
  | nil => simp [List.lookup_cons]
  | cons x xs ih =>
    rcases x with ⟨xk, xv⟩
    rw [List.cons_append]
    by_cases hx : k = xk
    · subst hx; simp [List.lookup_cons] at h
    · simp only [List.lookup_cons, beq_false_of_ne hx] at h ⊢
      exact ih h

theorem lookup_append_ne (l : List (String × String)) (k k' : String) (v : String)
    (h : k ≠ k') : (l ++ [(k', v)]).lookup k = l.lookup k := by
  induction l with
  | nil => simp [List.lookup_cons, beq_false_of_ne h, List.lookup]
  | cons x xs ih =>
    rcases x with ⟨xk, xv⟩
    rw [List.cons_append, List.lookup_cons, List.lookup_cons, ih]

theorem Headers_lookup_CT (e : MailConfig) : e.Headers.lookup "Content-Type" = none := by
  unfold MailConfig.Headers
  split_ifs <;> rfl

theorem Headers_lookup_CD (e : MailConfig) :
    e.Headers.lookup "Content-Disposition" = none := by
  unfold MailConfig.Headers
  split_ifs <;> rfl

/-- On a reliable sink, `headerToBytes` over the writer's top-level header
map appends exactly the rendering of the per-key templates, in iteration
order. -/
theorem headerToBytes_toks (e : MailConfig) (b1 b2 : String) (ord : List String) (s : List Nat) :
    headerToBytes pureWr s ord
        (e.Headers ++ [("Content-Type", "multipart/mixed;\r\n boundary=" ++ b1)])
      = s ++ render b1 b2 (ord.flatMap (hdrEntryToks e)) := by
  induction ord generalizing s with
  | nil => simp [headerToBytes, render]
  | cons k ks ih =>
    rw [headerToBytes]
    by_cases hct : k = "Content-Type"
    · subst hct
      rw [lookup_of_none _ _ _ (Headers_lookup_CT e)]
      simp only [pureWr]
      rw [ih]
      simp [hdrEntryToks, render_append, render_lits, render_cons, renderTok,
        strBytes_append, List.append_assoc]
    · rw [lookup_append_ne _ _ _ _ hct]
      by_cases hcd : k = "Content-Disposition"
      · subst hcd
        rw [Headers_lookup_CD e, ih]
        simp [hdrEntryToks, Headers_lookup_CD]
      · cases hv : e.Headers.lookup k with
        | none =>
          rw [ih]
          simp [hdrEntryToks, hct, hv]
        | some v =>
          have hne : ¬(k = "Content-Type" ∨ k = "Content-Disposition") := by tauto
          simp only [pureWr, if_neg hne]
          rw [ih]
          simp [hdrEntryToks, hct, hv, render_append, render_lits, render_cons, renderTok,
            strBytes_append, List.append_assoc]

theorem headerToBytes_single (v : String) (s : List Nat) :
    headerToBytes pureWr s ["Content-Type"] [("Content-Type", v)]
      = s ++ strBytes "Content-Type" ++ strBytes ": " ++ strBytes v ++ strBytes "\r\n" := by
  simp [headerToBytes, List.lookup_cons, pureWr, List.append_assoc]

theorem writeAll_pure (ls : List (List Nat)) (s : List Nat) :
    writeAll pureWr s ls = (s ++ ls.flatten, true) := by
  induction ls generalizing s with
  | nil => simp [writeAll]
  | cons l ls ih => simp [writeAll, pureWr, ih, List.append_assoc]

theorem base64WrapGo_pure (cs : List (List Nat)) (bbuf s : List Nat) (we : Bool) :
    base64WrapGo pureWr s we bbuf cs = (s ++ b64lines bbuf cs, we) := by
  induction cs generalizing bbuf s with
  | nil => simp [base64WrapGo, b64lines]
  | cons c cs ih =>
    by_cases hc : c.length = 57 <;>
      simp [base64WrapGo, b64lines, pureWr, hc, ih, List.append_assoc]

theorem base64Wrap_pure (input s : List Nat) (we : Bool) :
    base64Wrap pureWr s we input = (s ++ base64WrapBytes input, we) := by
  unfold base64WrapBytes base64Wrap
  simp only [base64WrapGo_pure]
  simp

theorem pureWr_fst (s l : List Nat) : (pureWr s l).1 = s ++ l := rfl

/-- On a reliable sink the alternative section appends the rendering of its
token template and returns its content-open error. -/
theorem altSectionW_pure (e : MailConfig) (fs : String → Option (List Nat))
    (b1 b2 : String) (s : List Nat) :
    altSectionW pureWr e fs b2 s = (s ++ render b1 b2 (altSectToks e fs), altSectErr e fs) := by
  unfold altSectionW
  rw [headerToBytes_single]
  cases hcd : contentData e fs with
  | none =>
    simp [altSectToks, altSectErr, hcd, pureWr, render_append, render_lits, render_cons,
      renderTok, strBytes_append, createPartBytes, List.append_assoc]
  | some data =>
    simp only [writeAll_pure, hcd]
    simp [altSectToks, altSectErr, hcd, pureWr, qpBody, render_append, render_lits, render_cons,
      renderTok, strBytes_append, createPartBytes, List.append_assoc]

theorem attachW_pure (mt : String → String) (fs : String → Option (List Nat))
    (b1 b2 : String) (path : String) (s : List Nat) (first : Bool) :
    attachW pureWr mt fs b1 s first false path
      = (s ++ render b1 b2 (attachToks mt fs first path).1,
         (attachToks mt fs first path).2.1, false, (attachToks mt fs first path).2.2) := by
  unfold attachW
  cases hf : fs path with
  | none => simp [attachToks, hf, render]
  | some data =>
    simp only [hf, Bool.and_false, Bool.false_and, base64Wrap_pure]
    simp [attachToks, hf, pureWr, base64Wrap_pure, render_append, render_lits, render_cons,
      renderTok, strBytes_append, createPartBytes, List.append_assoc]

theorem attachLoopW_pure (mt : String → String) (fs : String → Option (List Nat))
    (b1 b2 : String) (ps : List String) (s : List Nat) (first : Bool) :
    attachLoopW pureWr mt fs b1 s first false ps
      = (s ++ render b1 b2 (attachLoopToks mt fs first ps).1,
         (attachLoopToks mt fs first ps).2) := by
  induction ps generalizing s first with
  | nil => simp [attachLoopW, attachLoopToks, render]
  | cons p ps ih =>
    rw [attachLoopW, attachW_pure mt fs b1 b2 p s first]
    rcases hA : attachToks mt fs first p with ⟨ts, first', err⟩
    cases err with
    | none =>
      simp only [hA, attachLoopToks]
      rw [ih]
      simp [hA, render_append, List.append_assoc]
    | some e =>
      simp only [hA, attachLoopToks]
      simp [pureWr, render_append, render_lits, render_cons, renderTok,
        strBytes_append, List.append_assoc]

theorem splitOnChar_ne_nil (sep : Char) (l : List Char) : splitOnChar sep l ≠ [] := by
  induction l with
  | nil => simp [splitOnChar]
  | cons c rest ih =>
    unfold splitOnChar
    split_ifs
    · simp
    · cases h : splitOnChar sep rest <;> simp

theorem splitGo_ne_nil (s : String) : splitGo s ≠ [] := by
  simp [splitGo]
  exact splitOnChar_ne_nil ',' s.data

/-! ## Lemmas about the SMTP session model -/

theorem rcptLoop_all_ok (srv : SmtpServer) (l : List String)
    (h : ∀ a ∈ l, srv.rcptOk a = true) :
    rcptLoop srv l = (l.map .rcpt, none) := by
  induction l with
  | nil => rfl
  | cons a rest ih =>
    simp [rcptLoop, h a (by simp), ih (fun x hx => h x (by simp [hx]))]

theorem rcptLoop_first_fail (srv : SmtpServer) (good : List String) (bad : String)
    (rest : List String) (hg : ∀ a ∈ good, srv.rcptOk a = true) (hb : srv.rcptOk bad = false) :
    rcptLoop srv (good ++ bad :: rest) = (good.map .rcpt ++ [.rcpt bad], some .rcptErr) := by
  induction good with
  | nil => simp [rcptLoop, hb]
  | cons a g ih =>
    simp [rcptLoop, hg a (by simp), ih (fun x hx => hg x (by simp [hx]))]

theorem rcptLoop_none_iff (srv : SmtpServer) (l : List String) :
    (rcptLoop srv l).2 = none ↔ ∀ a ∈ l, srv.rcptOk a = true := by
  induction l with
  | nil => simp [rcptLoop]
  | cons a rest ih =>
    by_cases h : srv.rcptOk a = true <;> simp [rcptLoop, h, ih]

theorem rcptLoop_mem_rcpt (srv : SmtpServer) (l : List String) :
    ∀ e ∈ (rcptLoop srv l).1, ∃ a, e = .rcpt a := by
  induction l with
  | nil => simp [rcptLoop]
  | cons a rest ih =>
    intro e he
    by_cases h : srv.rcptOk a = true <;> simp [rcptLoop, h] at he
    · rcases he with h1 | h2
      · exact ⟨a, h1⟩
      · exact ih e h2
    · exact ⟨a, he⟩

theorem rcptLoop_no_closeConn (srv : SmtpServer) (l : List String) :
    SmtpEvent.closeConn ∉ (rcptLoop srv l).1 := by
  intro hmem
  obtain ⟨a, ha⟩ := rcptLoop_mem_rcpt srv l _ hmem
  simp at ha

theorem rcptLoop_no_quit (srv : SmtpServer) (l : List String) :
    SmtpEvent.quit ∉ (rcptLoop srv l).1 := by
  intro hmem
  obtain ⟨a, ha⟩ := rcptLoop_mem_rcpt srv l _ hmem
  simp at ha

theorem afd_eq (msg : MailConfig) (srv : SmtpServer) :
    mailSendAfterDial msg srv = afdSpec msg srv := by
  unfold mailSendAfterDial afdSpec step
  by_cases h1 : srv.helloOk = true <;>
  by_cases hOff : srv.starttlsOffered = true <;>
  by_cases h2 : srv.starttlsOk = true <;>
  by_cases h3 : srv.authOk = true <;>
  by_cases h4 : srv.mailOk = true <;>
  by_cases h6 : srv.dataOk = true <;>
  by_cases h7 : srv.dataWriteOk = true <;>
  by_cases h8 : srv.dataCloseOk = true <;>
  simp [h1, hOff, h2, h3, h4, h6, h7, h8] <;>
  rcases hE : (rcptLoop srv (splitGo msg.To)).2 with _ | e <;>
  simp [hE]

theorem afterDial_no_closeConn (msg : MailConfig) (srv : SmtpServer) :
    SmtpEvent.closeConn ∉ (mailSendAfterDial msg srv).1 := by
  have hnc := rcptLoop_no_closeConn srv (splitGo msg.To)
  rw [afd_eq]
  unfold afdSpec
  rcases hE : (rcptLoop srv (splitGo msg.To)).2 with _ | e <;>
    simp only [hE] <;> split_ifs <;> simp_all

theorem afterDial_quit_iff (msg : MailConfig) (srv : SmtpServer) :
    SmtpEvent.quit ∈ (mailSendAfterDial msg srv).1 ↔ allPhasesOk msg srv := by
  have hnq := rcptLoop_no_quit srv (splitGo msg.To)
  have hiff := rcptLoop_none_iff srv (splitGo msg.To)
  rw [afd_eq]
  unfold afdSpec allPhasesOk
  rcases hE : (rcptLoop srv (splitGo msg.To)).2 with _ | e <;>
    rw [hE] at hiff <;> simp only [hE] <;> split_ifs <;> simp_all

theorem afterDial_success (msg : MailConfig) (srv : SmtpServer) (h : allPhasesOk msg srv) :
    mailSendAfterDial msg srv =
      (SmtpEvent.hello :: (if srv.starttlsOffered then [SmtpEvent.starttls] else [])
        ++ [SmtpEvent.auth, SmtpEvent.mailFrom] ++ (splitGo msg.To).map .rcpt
        ++ [SmtpEvent.dataCmd, SmtpEvent.dataWrite, SmtpEvent.dataClose, SmtpEvent.quit],
       if srv.quitOk then none else some SmtpErr.quitErr) := by
  obtain ⟨h1, h2, h3, h4, h5, h6, h7, h8⟩ := h
  rw [afd_eq]
  unfold afdSpec
  rw [rcptLoop_all_ok srv _ h5]
  by_cases hOff : srv.starttlsOffered = true <;>
    simp [h1, h2, h3, h4, h6, h7, h8, hOff]

/-- After the parameter guard and a successful dial, a `MailSend` run is the
dial event, the post-dial protocol trace, and the deferred connection
close. -/
theorem MailSend_dial (msg : MailConfig) (srv : SmtpServer) (body : List Nat)
    (hf : msg.From ≠ "") (hd : srv.dialOk = true) :
    MailSend msg srv body =
      (SmtpEvent.dial :: (mailSendAfterDial msg srv).1 ++ [SmtpEvent.closeConn],
       (mailSendAfterDial msg srv).2) := by
  unfold MailSend
  have hlen : (splitGo msg.To).length ≠ 0 := by
    simp [List.length_eq_zero, splitGo_ne_nil]
  rw [if_neg (by tauto), hd]
  simp

/-! ## Claim theorems -/

/-- C1: the final short chunk is not emitted at its natural encoded length.
For a 1-byte stream the code encodes the whole 57-byte read buffer (the one
fresh byte plus 56 zero bytes), emitting a full 76-character line plus CRLF
(78 bytes) instead of the natural 4-character `QQ==` line; and for a
58-byte stream the second line encodes the one fresh byte followed by 56
stale bytes of the previous chunk. -/
theorem base64Wrap_short_chunk_full_line :
    base64WrapBytes [65] = b64encode ([65] ++ List.replicate 56 0) ++ [13, 10] ∧
    (base64WrapBytes [65]).length = 78 ∧
    base64WrapBytes [65] ≠ b64encode [65] ++ [13, 10] ∧
    base64WrapBytes (List.replicate 57 1 ++ [2])
      = b64encode (List.replicate 57 1) ++ [13, 10]
        ++ (b64encode ([2] ++ List.replicate 56 1) ++ [13, 10]) := by decide

/-- C2 counterexample: for a spec with no body but one 5-byte attachment,
`MailConfig.Len` returns 0 instead of the attachment sum, refuting both
"equals content length plus the stat'd size of every attachment" and
"returns 0 only when there is no body and no attachments". -/
theorem Len_skips_attachments_counterexample :
    MailConfig.Len cfgAttachOnly fsSizeC2 = some 0 ∧
    estimateSpec cfgAttachOnly fsSizeC2 = some 5 ∧
    MailConfig.Len cfgAttachOnly fsSizeC2 ≠ estimateSpec cfgAttachOnly fsSizeC2 ∧
    cfgAttachOnly.Attachments ≠ "" := by decide

/-- C2 amended: `MailConfig.Len` equals the spec's estimate (content length,
or stat'd content-file size, plus stat'd attachment sizes) whenever a body
is present, but returns 0 — skipping the attachments entirely — whenever
both `Content` and `ContentPath` are empty. -/
theorem Len_eq_estimate_amended (e : MailConfig) (fsSize : String → Option Nat) :
    e.Len fsSize =
      if e.Content = "" ∧ e.ContentPath = "" then some 0 else estimateSpec e fsSize := by
  by_cases h1 : e.Content = "" <;> by_cases h2 : e.ContentPath = "" <;>
    simp [MailConfig.Len, estimateSpec, h1, h2]

/-- C3 counterexample: when the content-file stat fails, `MailRun` does
abort every remaining step (no sink creation, no composition, no network
event), but it returns `nil`, not the size-estimation error. -/
theorem MailRun_swallows_len_error_counterexample :
    MailConfig.Len cfgC3 (fun p => (fsNone p).map List.length) = none ∧
    MailRun cfgC3 fsNone mtNone "B1" "B2" ordStd true srvAllOk = ([.lenEv], none) := by decide

/-- C3 amended: on a size-estimation failure `MailRun` stops after the `Len`
call — no temp file, no composition, no network activity — but swallows the
error, printing it and returning `nil` (success) to its caller. -/
theorem MailRun_len_error_aborts_returns_nil (cfg : MailConfig)
    (fs : String → Option (List Nat)) (mt : String → String) (b1 b2 : String)
    (ord : List String) (tempOk : Bool) (srv : SmtpServer)
    (hparams : ¬(cfg.User = "" ∨ cfg.Passwd = "" ∨ cfg.From = "" ∨ cfg.To = ""))
    (hlen : MailConfig.Len cfg (fun p => (fs p).map List.length) = none) :
    MailRun cfg fs mt b1 b2 ord tempOk srv = ([.lenEv], none) := by
  unfold MailRun
  rw [if_neg hparams, hlen]

/-- Witness for the amended C3 statement at the concrete missing-file
configuration. -/
theorem MailRun_len_error_aborts_returns_nil_witness :
    MailRun cfgC3 fsNone mtNone "B1" "B2" ordStd true srvAllOk = ([.lenEv], none) :=
  MailRun_len_error_aborts_returns_nil cfgC3 fsNone mtNone "B1" "B2" ordStd true srvAllOk
    (by decide) (by decide)

/-- C4 counterexample: on a sink that rejects every write (capacity 0), the
composition of a spec with no body and no attachments attempts its header
writes, every one of them fails (the failure flag of the sink state is
raised), and `Writer` still returns no error. -/
theorem Writer_ignores_header_write_failure_counterexample :
    MailConfig.Writer cfgNoBody (capWr 0) fsNone mtNone "B1" "B2" ordStd (0, false)
      = ((0, true), none) := by decide

/-- C4 amended: `Writer` does report sink failures on the error-checked
writes — in particular, with a body present, the text part's `CreatePart`
write on a failing sink yields an error — but failures of the unchecked
writes (the top-level headers via `headerToBytes`, and the base64
attachment lines inside `base64Wrap`) are silently ignored. -/
theorem Writer_reports_part_write_failure (e : MailConfig)
    (fs : String → Option (List Nat)) (mt : String → String) (b1 b2 : String)
    (ord : List String) (s : Unit) (h : e.Content ≠ "") :
    (MailConfig.Writer e failWr fs mt b1 b2 ord s).2 = some .sinkWrite := by
  simp [MailConfig.Writer, altSectionW, failWr, h]

/-- Witness for the amended C4 statement at the standard configuration. -/
theorem Writer_reports_part_write_failure_witness :
    (MailConfig.Writer cfgStd failWr fsNone mtNone "B1" "B2" ordStd ()).2
      = some .sinkWrite :=
  Writer_reports_part_write_failure cfgStd fsNone mtNone "B1" "B2" ordStd () (by decide)

/-- C5: on a successful composition of the standard body-bearing spec the
inner `multipart/alternative` boundary is opened once and closed once, but
the outer `multipart/mixed` boundary is opened once and never closed —
`w.Close()` is unreachable on the success path, so no `--BNDOUT--`
terminator is ever written before the sink is handed to the transport
layer. -/
theorem Writer_outer_boundary_never_closed :
    (writerRun cfgStd fsNone mtNone "BNDOUT" "BNDIN" ordStd).2 = none ∧
    countOcc (strBytes "--BNDOUT") (writerRun cfgStd fsNone mtNone "BNDOUT" "BNDIN" ordStd).1 = 1 ∧
    countOcc (strBytes "--BNDOUT--") (writerRun cfgStd fsNone mtNone "BNDOUT" "BNDIN" ordStd).1 = 0 ∧
    countOcc (strBytes "--BNDIN") (writerRun cfgStd fsNone mtNone "BNDOUT" "BNDIN" ordStd).1 = 2 ∧
    countOcc (strBytes "--BNDIN--") (writerRun cfgStd fsNone mtNone "BNDOUT" "BNDIN" ordStd).1 = 1 := by
  decide

/-- C6 counterexample: `strings.Split("", ",")` is `[""]`, never the empty
slice, so `MailSend`'s `len(to) == 0` guard cannot fire: called directly
with an empty recipient string it dials the server (a socket is opened)
instead of failing with the configuration error. -/
theorem MailSend_empty_recipients_dials_counterexample :
    cfgEmptyTo.To = "" ∧
    MailSend cfgEmptyTo srvHelloFail [] = ([.dial, .hello, .closeConn], some .helloErr) ∧
    (MailSend cfgEmptyTo srvHelloFail []).2 ≠ some .configErr ∧
    SmtpEvent.dial ∈ (MailSend cfgEmptyTo srvHelloFail []).1 := by decide

/-- C6 amended: the top-level `MailRun` does reject an empty sender or an
empty recipient string before any I/O, and `MailSend` rejects an empty
sender before dialing; but `MailSend`'s own empty-recipient guard is
ineffective (`strings.Split` never yields an empty slice), so only `MailRun`
enforces the recipient half of the invariant. -/
theorem empty_sender_or_recipient_amended :
    (∀ (cfg : MailConfig) (fs : String → Option (List Nat)) (mt : String → String)
       (b1 b2 : String) (ord : List String) (tempOk : Bool) (srv : SmtpServer),
       cfg.From = "" ∨ cfg.To = "" →
       MailRun cfg fs mt b1 b2 ord tempOk srv = ([], some .paramErr)) ∧
    (∀ (msg : MailConfig) (srv : SmtpServer) (body : List Nat), msg.From = "" →
       MailSend msg srv body = ([], some .configErr)) := by
  constructor
  · intro cfg fs mt b1 b2 ord tempOk srv h
    unfold MailRun
    rw [if_pos (by tauto)]
  · intro msg srv body h
    unfold MailSend
    simp [h]

/-- Witness for the amended C6 statement: an empty recipient string stops
`MailRun` with the parameter error, and an empty sender stops `MailSend`
before dialing. -/
theorem empty_sender_or_recipient_amended_witness :
    MailRun cfgEmptyTo fsNone mtNone "B1" "B2" ordStd true srvAllOk = ([], some .paramErr) ∧
    MailSend ⟨"u", "p", "h:25", "", "b@x.com", "plain", "s", "hi", "", ""⟩ srvAllOk []
      = ([], some .configErr) :=
  ⟨empty_sender_or_recipient_amended.1 cfgEmptyTo fsNone mtNone "B1" "B2" ordStd true srvAllOk
      (Or.inr rfl),
   empty_sender_or_recipient_amended.2 ⟨"u", "p", "h:25", "", "b@x.com", "plain", "s", "hi", "", ""⟩
      srvAllOk [] rfl⟩

/-- C7 counterexample: a run whose Hello is rejected terminates with the
Hello error and the deferred connection close, but QUIT is never attempted
— `client.Quit()` is reached only when every earlier step succeeded, so
"always attempted, once the protocol sequence has terminated or aborted" is
false on the abort paths. -/
theorem MailSend_no_quit_on_abort_counterexample :
    MailSend cfgStd srvHelloFail [] = ([.dial, .hello, .closeConn], some .helloErr) ∧
    SmtpEvent.quit ∉ (MailSend cfgStd srvHelloFail []).1 ∧
    SmtpEvent.closeConn ∈ (MailSend cfgStd srvHelloFail []).1 := by decide

/-- C7 amended: once the dial succeeds, the deferred `client.Close()` makes
the connection release the final event of every exit path, success or
failure; but QUIT is attempted exactly when every protocol phase before it
succeeded, and only then is its result the function's final result. -/
theorem MailSend_close_and_quit (msg : MailConfig) (srv : SmtpServer) (body : List Nat)
    (hf : msg.From ≠ "") (hd : srv.dialOk = true) :
    (MailSend msg srv body).1 = .dial :: (mailSendAfterDial msg srv).1 ++ [.closeConn] ∧
    SmtpEvent.closeConn ∉ (mailSendAfterDial msg srv).1 ∧
    (SmtpEvent.quit ∈ (MailSend msg srv body).1 ↔ allPhasesOk msg srv) ∧
    (allPhasesOk msg srv →
      (MailSend msg srv body).2 = if srv.quitOk then none else some .quitErr) := by
  rw [MailSend_dial msg srv body hf hd]
  refine ⟨rfl, afterDial_no_closeConn msg srv, ?_, ?_⟩
  · simp [afterDial_quit_iff msg srv]
  · intro h
    rw [show (mailSendAfterDial msg srv).2
        = (if srv.quitOk then none else some SmtpErr.quitErr) by
      rw [afterDial_success msg srv h]]

/-- Witness for the amended C7 statement at the all-success server. -/
theorem MailSend_close_and_quit_witness :
    (MailSend cfgStd srvAllOk []).1
        = .dial :: (mailSendAfterDial cfgStd srvAllOk).1 ++ [.closeConn] ∧
    SmtpEvent.closeConn ∉ (mailSendAfterDial cfgStd srvAllOk).1 ∧
    (SmtpEvent.quit ∈ (MailSend cfgStd srvAllOk []).1 ↔ allPhasesOk cfgStd srvAllOk) ∧
    (allPhasesOk cfgStd srvAllOk →
      (MailSend cfgStd srvAllOk []).2 = if srvAllOk.quitOk then none else some .quitErr) :=
  MailSend_close_and_quit cfgStd srvAllOk [] (by decide) rfl

/-- C8 counterexample: two runs of the writer on the same `MessageSpec`,
the same filesystem and the same boundary tokens, whose header map
iteration orders are two (legal) permutations of the same key set, produce
different payload bytes — the headers appear in different orders, so the
payloads are not identical up to boundary tokens. -/
theorem Writer_header_order_counterexample :
    (["From", "To", "Subject", "Content-Type"] : List String).Perm ordStd ∧
    (writerRun cfgStd fsNone mtNone "B1" "B2" ordStd).1
      ≠ (writerRun cfgStd fsNone mtNone "B1" "B2" ["From", "To", "Subject", "Content-Type"]).1 := by
  decide

/-- C8 amended: for a fixed header iteration order the composition run is
the rendering of a boundary-token template that does not depend on the
boundary strings, and its error result does not depend on them either — so
two runs on equal inputs with equal header orders are byte-identical except
at the boundary-token positions; the header iteration order (Go map range
order) is the one further source of variation, as the counterexample
shows. -/
theorem Writer_payload_template (e : MailConfig) (fs : String → Option (List Nat))
    (mt : String → String) (ord : List String) (b1 b2 : String) :
    writerRun e fs mt b1 b2 ord
      = (render b1 b2 (writerToksErr e fs mt ord).1, (writerToksErr e fs mt ord).2) := by
  unfold writerRun MailConfig.Writer writerToksErr
  simp only [headerToBytes_toks e b1 b2 ord, pureWr_fst]
  by_cases hbody : e.Content ≠ "" ∨ e.ContentPath ≠ ""
  · rw [if_pos hbody, if_pos hbody, altSectionW_pure e fs b1 b2]
    cases hErr : altSectErr e fs with
    | some err =>
      simp only [hErr]
      simp [render_append, render_lits, render_cons, renderTok,
        strBytes_append, List.append_assoc]
    | none =>
      simp only [hErr]
      by_cases hatt : e.Attachments ≠ ""
      · simp only [if_pos hatt, attachLoopW_pure mt fs b1 b2]
        simp [render_append, render_lits, render_cons, renderTok,
          strBytes_append, List.append_assoc]
      · simp only [if_neg hatt]
        simp [render_append, render_lits, render_cons, renderTok,
          strBytes_append, List.append_assoc]
  · rw [if_neg hbody, if_neg hbody]
    by_cases hatt : e.Attachments ≠ ""
    · simp only [if_pos hatt, attachLoopW_pure mt fs b1 b2]
      simp [render_append, render_lits, render_cons, renderTok,
        strBytes_append, List.append_assoc]
    · simp only [if_neg hatt]
      simp [render_append, render_lits, render_cons, renderTok,
        strBytes_append, List.append_assoc]

/-- C9: `MailSend` issues exactly one RCPT per recipient, in list order; on
full success the trace is the complete command sequence, and the first
rejected RCPT ends the trace at that recipient — no further RCPT, no DATA
phase, the connection still closed, and the RCPT error surfaced. -/
theorem MailSend_rcpt_order_and_abort (msg : MailConfig) (srv : SmtpServer) (body : List Nat)
    (good : List String) (bad : String) (rest : List String)
    (hf : msg.From ≠ "") (hd : srv.dialOk = true) (h1 : srv.helloOk = true)
    (h2 : srv.starttlsOffered = true → srv.starttlsOk = true)
    (h3 : srv.authOk = true) (h4 : srv.mailOk = true) :
    ((∀ a ∈ splitGo msg.To, srv.rcptOk a = true) → srv.dataOk = true →
      srv.dataWriteOk = true → srv.dataCloseOk = true →
      (MailSend msg srv body).1 =
        .dial :: .hello :: ((if srv.starttlsOffered then [SmtpEvent.starttls] else [])
          ++ [.auth, .mailFrom] ++ (splitGo msg.To).map .rcpt
          ++ [.dataCmd, .dataWrite, .dataClose, .quit, .closeConn])) ∧
    (splitGo msg.To = good ++ bad :: rest → (∀ a ∈ good, srv.rcptOk a = true) →
      srv.rcptOk bad = false →
      MailSend msg srv body =
        (.dial :: .hello :: ((if srv.starttlsOffered then [SmtpEvent.starttls] else [])
          ++ [.auth, .mailFrom] ++ good.map .rcpt ++ [.rcpt bad, .closeConn]),
         some .rcptErr)) := by
  constructor
  · intro h5 h6 h7 h8
    rw [MailSend_dial msg srv body hf hd,
      afterDial_success msg srv ⟨h1, h2, h3, h4, h5, h6, h7, h8⟩]
    simp
  · intro hsplit hg hb
    rw [MailSend_dial msg srv body hf hd, afd_eq]
    unfold afdSpec
    rw [hsplit, rcptLoop_first_fail srv good bad rest hg hb]
    by_cases hOff : srv.starttlsOffered = true
    · simp [h1, h3, h4, hOff, h2 hOff]
    · simp [h1, h3, h4, hOff]

/-- Witness for C9: two recipients, the second rejected — the session ends
after exactly the two RCPT commands, with no DATA command and the
connection closed. -/
theorem MailSend_rcpt_order_and_abort_witness :
    MailSend cfgTwoRcpt srvSecondRcptFail []
      = ([.dial, .hello, .auth, .mailFrom, .rcpt "b@x.com", .rcpt "c@x.com", .closeConn],
         some .rcptErr) := by
  have h := (MailSend_rcpt_order_and_abort cfgTwoRcpt srvSecondRcptFail []
      ["b@x.com"] "c@x.com" [] (by decide) rfl rfl (by decide) rfl rfl).2
      (by decide) (by decide) (by decide)
  simpa using h

/-- C10: `MailRun` rejects an empty `User` or `Passwd` before any size
estimation, composition or network step: no event is recorded and the
parameter error is returned. -/
theorem MailRun_requires_credentials (cfg : MailConfig)
    (fs : String → Option (List Nat)) (mt : String → String) (b1 b2 : String)
    (ord : List String) (tempOk : Bool) (srv : SmtpServer)
    (h : cfg.User = "" ∨ cfg.Passwd = "") :
    MailRun cfg fs mt b1 b2 ord tempOk srv = ([], some .paramErr) := by
  unfold MailRun
  rw [if_pos (by tauto)]

/-- Witness for C10 at a concrete configuration with an empty password. -/
theorem MailRun_requires_credentials_witness :
    MailRun ⟨"u", "", "h:25", "a@x.com", "b@x.com", "plain", "s", "hi", "", ""⟩
      fsNone mtNone "B1" "B2" ordStd true srvAllOk = ([], some .paramErr) :=
  MailRun_requires_credentials ⟨"u", "", "h:25", "a@x.com", "b@x.com", "plain", "s", "hi", "", ""⟩
    fsNone mtNone "B1" "B2" ordStd true srvAllOk (Or.inr rfl)

end WsMail
